import Mathlib

/-!
# Verification of the Tokobot session orchestrator (`src/main.py`)

Shallow embedding of the bot's core logic:

* `Json` — JSON values / Python objects flowing through the program
  (Python `None` is represented by `Json.null`).
* Python-dict primitives (`pyGet` for `.get`, `pyIndex` for `[...]`,
  `pyTruthy` for truthiness, `pyLeInt`/`pyGtInt` for `<= 0` / `> 0`).
* The credential store (`_load_token` / `_save_token`).
* The API gateway `_request` / `update_token` as a fuel-indexed
  interpreter `interpCall` over an oracle of HTTP responses
  (`none` result = the recursion does not terminate within the fuel).
* `update_energy`, `play_game`, the waiting-for-energy countdown and one
  iteration of the `main` loop.
-/

/-- JSON values as produced by `json.load` / `response.json()`; also used for
Python values held in `self.stats` (Python `None` is `Json.null`). -/
inductive Json where
  | null
  | bool (b : Bool)
  | num (n : Int)
  | str (s : String)
  | arr (elems : List Json)
  | obj (fields : List (String × Json))
deriving Repr

/-- Python exceptions that the modelled code can raise. -/
inductive PyError where
  | attributeError
  | keyError
  | typeError
deriving Repr, DecidableEq

/-- Python truthiness (`if x:`) of the values we model. -/
def pyTruthy : Json → Bool
  | .null => false
  | .bool b => b
  | .num n => n != 0
  | .str s => s ≠ ""
  | .arr xs => !xs.isEmpty
  | .obj fs => !fs.isEmpty

/-- First-match association lookup in a JSON object's field list
(a Python dict has unique keys). -/
def lookupField (fs : List (String × Json)) (k : String) : Option Json :=
  match fs with
  | [] => none
  | (k', v) :: rest => if k' = k then some v else lookupField rest k

/-- Python `d.get(k)`: `None` default on a dict, `AttributeError` on anything
without a `.get` method. -/
def pyGet (j : Json) (k : String) : Except PyError Json :=
  match j with
  | .obj fs => .ok ((lookupField fs k).getD .null)
  | _ => .error .attributeError

/-- Python `d.get(k, default)`. -/
def pyGetD (j : Json) (k : String) (d : Json) : Except PyError Json :=
  match j with
  | .obj fs => .ok ((lookupField fs k).getD d)
  | _ => .error .attributeError

/-- Python `d[k]` string indexing: `KeyError` when the key is missing,
`TypeError` when the value is not subscriptable by a string. -/
def pyIndex (j : Json) (k : String) : Except PyError Json :=
  match j with
  | .obj fs =>
    match lookupField fs k with
    | some v => .ok v
    | none => .error .keyError
  | _ => .error .typeError

/-- Python `k in d` for a dict (the code only applies it to dicts). -/
def pyContains (j : Json) (k : String) : Bool :=
  match j with
  | .obj fs => (lookupField fs k).isSome
  | _ => false

/-- Python `x == "lit"` for a string literal. -/
def Json.isStr (j : Json) (s : String) : Bool :=
  match j with
  | .str t => t = s
  | _ => false

/-- Python `x <= n` against an integer (bools are ints; anything else raises
`TypeError`). -/
def pyLeInt (j : Json) (n : Int) : Except PyError Bool :=
  match j with
  | .num m => .ok (m ≤ n)
  | .bool b => .ok ((if b then (1 : Int) else 0) ≤ n)
  | _ => .error .typeError

/-- Python `x > n` against an integer. -/
def pyGtInt (j : Json) (n : Int) : Except PyError Bool :=
  match j with
  | .num m => .ok (n < m)
  | .bool b => .ok (n < (if b then (1 : Int) else 0))
  | _ => .error .typeError

/-! ## Credential store (`_load_token` / `_save_token`) -/

/-- Contents of the token file as seen by `_load_token`: the file is missing
(`FileNotFoundError`), its text does not decode as JSON
(`json.JSONDecodeError`, which includes an empty file), or it decodes to a
JSON value. -/
inductive TokenFile where
  | missing
  | malformed
  | parsed (v : Json)
deriving Repr

/-- `_load_token`: catches only `FileNotFoundError` and `JSONDecodeError`
(returning `None` = `Json.null`); on decoded JSON it runs `data.get('token')`,
which raises `AttributeError` when the top-level value is not an object. -/
def loadToken : TokenFile → Except PyError Json
  | .missing => .ok .null
  | .malformed => .ok .null
  | .parsed (.obj fs) => .ok ((lookupField fs "token").getD .null)
  | .parsed _ => .error .attributeError

/-- `_save_token`: `json.dump({'token': token}, file)` — the persisted record
after a successful save. -/
def saveToken (t : Json) : TokenFile :=
  .parsed (.obj [("token", t)])

/-! ## API gateway (`_request` / `update_token`) -/

/-- The three remote endpoints the bot calls. -/
inductive Endpoint where
  | getToken          -- GET  user/getToken
  | getUserGameInfo   -- GET  game/getUserGameInfo
  | playGameGetReward -- POST game/playGameGetReward
deriving Repr, DecidableEq

/-- Outcome of one issued HTTP request, as observed after
`response.raise_for_status()` / `response.json()`. -/
inductive HttpResult where
  | success (body : Json)   -- 2xx with parsed JSON body
  | httpError (code : Nat)  -- raise_for_status raised HTTPError with this code
  | transportError          -- RequestException or any other failure
deriving Repr

/-- Trace events recorded by the interpreter. -/
inductive Event where
  | attempt (ep : Endpoint) (r : HttpResult)  -- an HTTP request was issued
  | refresh                                   -- update_token was invoked
  | pollEnergy                                -- update_energy was invoked
deriving Repr

/-- Session statistics (`self.stats`). `Total Games` and `Total Points` are
only ever initialised to `0` and incremented by integers, so they are `Int`;
the other fields hold arbitrary Python values. -/
structure Stats where
  energy : Json
  totalGames : Int
  lastScore : Json
  multiplier : Json
  totalPoints : Int
  lastUpdate : Json
deriving Repr

/-- Initial statistics (`TokoplayAPI.__init__`). -/
def initStats : Stats :=
  { energy := .num 0, totalGames := 0, lastScore := .str "N/A",
    multiplier := .str "N/A", totalPoints := 0, lastUpdate := .str "Never" }

/-- Full interpreter state: the client's mutable fields, the environment
(whether `data.txt` is readable, the oracle of pending HTTP responses) and
the recorded trace. -/
structure BotState where
  token : Json               -- self.token (Json.null = Python None)
  dataFileOk : Bool          -- open('data.txt') succeeds in update_token
  tokenFile : TokenFile      -- the persisted credential store
  responses : List HttpResult -- oracle: responses to successive HTTP requests
  log : List Event
  stats : Stats
deriving Repr

/-- A pending call into the gateway: `_request(method, endpoint, retry_count)`
or `update_token()`. -/
inductive Call where
  | req (ep : Endpoint) (rc : Nat)
  | refreshToken
deriving Repr

/-- `update_token`'s handling of the `user/getToken` response:
`if response and response.get('status') == 'OK': response['data']['token']`.
`.ok (some t)` = new token, `.ok none` = falsy response or status not OK,
`.error` = an exception (caught by `update_token`, which then returns False). -/
def extractToken (resp : Json) : Except PyError (Option Json) :=
  if pyTruthy resp then
    match pyGet resp "status" with
    | .error e => .error e
    | .ok s =>
      if s.isStr "OK" then
        match pyIndex resp "data" with
        | .error e => .error e
        | .ok d =>
          match pyIndex d "token" with
          | .error e => .error e
          | .ok t => .ok (some t)
      else .ok none
  else .ok none

/-- Pop the next oracle response; an exhausted oracle behaves like a
transport failure. -/
def nextResponse : List HttpResult → HttpResult × List HttpResult
  | [] => (.transportError, [])
  | r :: rest => (r, rest)

/-- Fuel-indexed interpreter of the mutually recursive `_request` /
`update_token` pair. A `none` result means the mutual recursion did not
finish within `fuel` nested calls (it models divergence, since every
recursive call strictly consumes fuel). The `Json` result is `_request`'s
return value (`Json.null` = Python `None`) or `update_token`'s boolean.

`_request`: return None once `retry_count >= 3`; call `update_token()` when
no (truthy) token is held; issue the HTTP request; on success return the
parsed body; on a 401 call `update_token()` and retry the same call with
`retry_count + 1`; on any other HTTP or transport error return None.

`update_token`: read `data.txt` (an unreadable file is caught and returns
False); `_request('get', 'user/getToken', ...)`; on a truthy response with
status "OK" store `response['data']['token']` in memory and in the token
file and return True; otherwise (including caught exceptions) return False. -/
def interpCall : Nat → BotState → Call → Option (BotState × Json)
  | 0, _, _ => none
  | Nat.succ f, st, .req ep rc =>
    if 3 ≤ rc then
      some (st, .null)
    else
      let auth : Option BotState :=
        if pyTruthy st.token then some st
        else (interpCall f st .refreshToken).map Prod.fst
      match auth with
      | none => none
      | some st1 =>
        let (r, rest) := nextResponse st1.responses
        let st2 : BotState :=
          { st1 with responses := rest, log := st1.log ++ [.attempt ep r] }
        match r with
        | .success body => some (st2, body)
        | .httpError code =>
          if code = 401 then
            match interpCall f st2 .refreshToken with
            | none => none
            | some (st3, _) => interpCall f st3 (.req ep (rc + 1))
          else
            some (st2, .null)
        | .transportError => some (st2, .null)
  | Nat.succ f, st, .refreshToken =>
    let st0 : BotState := { st with log := st.log ++ [.refresh] }
    if st0.dataFileOk then
      match interpCall f st0 (.req .getToken 0) with
      | none => none
      | some (st1, resp) =>
        match extractToken resp with
        | .ok (some t) =>
          some ({ st1 with token := t, tokenFile := saveToken t }, .bool true)
        | _ => some (st1, .bool false)
    else
      some (st0, .bool false)

/-- `self._request(method, endpoint, ...)` with an explicit retry counter. -/
def interpRequest (fuel : Nat) (st : BotState) (ep : Endpoint) (rc : Nat) :
    Option (BotState × Json) :=
  interpCall fuel st (.req ep rc)

/-- `self.update_token()`. -/
def interpUpdateToken (fuel : Nat) (st : BotState) : Option (BotState × Json) :=
  interpCall fuel st .refreshToken

/-! ## `update_energy` -/

/-- The value `update_energy` extracts from the `game/getUserGameInfo`
response: `if response and response.get('status') == 'OK':
response["data"].get("userCurrentEnergy", 0)`. An `.error` is a raised
exception (caught by `update_energy`); `.ok none` is a falsy response or a
status that is not "OK". -/
def energyFromResponse (resp : Json) : Except PyError (Option Json) :=
  if pyTruthy resp then
    match pyGet resp "status" with
    | .error e => .error e
    | .ok s =>
      if s.isStr "OK" then
        match pyIndex resp "data" with
        | .error e => .error e
        | .ok d =>
          match pyGetD d "userCurrentEnergy" (.num 0) with
          | .error e => .error e
          | .ok v => .ok (some v)
      else .ok none
  else .ok none

/-- `update_energy`'s stats update: on a successful extraction store the
energy value and the `datetime.now()` timestamp `now`; otherwise (including
caught exceptions, which abort before the assignment) leave the stats
unchanged and return False. -/
def applyEnergyResult (resp : Json) (now : Json) (stats : Stats) : Stats × Bool :=
  match energyFromResponse resp with
  | .ok (some v) => ({ stats with energy := v, lastUpdate := now }, true)
  | _ => (stats, false)

/-- `self.update_energy()`: one `_request('get', 'game/getUserGameInfo')`
followed by `applyEnergyResult`. Returns the updated state and
`update_energy`'s boolean result. -/
def interpUpdateEnergy (fuel : Nat) (st : BotState) (now : Json) :
    Option (BotState × Bool) :=
  let st0 : BotState := { st with log := st.log ++ [.pollEnergy] }
  match interpRequest fuel st0 .getUserGameInfo 0 with
  | none => none
  | some (st1, resp) =>
    let (stats1, ok) := applyEnergyResult resp now st1.stats
    some ({ st1 with stats := stats1 }, ok)

/-! ## `play_game` -/

/-- `play_game`'s handling of the `game/playGameGetReward` response.
On a truthy response with status "OK": increment `Total Games`, set
`Last Score` and `Multiplier`; then, only if the response has a `data` key,
set `Energy` from `data.get('userCurrentEnergy', current energy)` and add the
score to `Total Points`; return True. Otherwise return False. `play_game`
has no try/except, so a raised exception (`.error`) escapes with the updates
made so far already applied. -/
def applyPlayResult (score : Int) (multiplier : Json) (resp : Json)
    (stats : Stats) : Stats × Except PyError Bool :=
  if pyTruthy resp then
    match pyGet resp "status" with
    | .error e => (stats, .error e)
    | .ok s =>
      if s.isStr "OK" then
        let stats1 : Stats :=
          { stats with totalGames := stats.totalGames + 1,
                       lastScore := .num score, multiplier := multiplier }
        if pyContains resp "data" then
          match pyIndex resp "data" with
          | .error e => (stats1, .error e)
          | .ok d =>
            match pyGetD d "userCurrentEnergy" stats1.energy with
            | .error e => (stats1, .error e)
            | .ok v =>
              ({ stats1 with energy := v,
                             totalPoints := stats1.totalPoints + score }, .ok true)
        else (stats1, .ok true)
      else (stats, .ok false)
  else (stats, .ok false)

/-- The 60-tick progress loop inside `play_game` calls `update_energy` at
ticks 0, 5, ..., 55 — twelve display-only refreshes (`count` counts the
remaining refreshes). -/
def interpRefreshLoop (fuel : Nat) (now : Json) :
    Nat → BotState → Option BotState
  | 0, st => some st
  | Nat.succ k, st =>
    match interpUpdateEnergy fuel st now with
    | none => none
    | some (st1, _) => interpRefreshLoop fuel now k st1

/-- `self.play_game(game_id, score, multiplier)`: twelve display refreshes,
then one `_request('post', 'game/playGameGetReward', ...)`, then
`applyPlayResult`. The result is `play_game`'s return value, or the
exception it raises. -/
def interpPlayGame (fuel : Nat) (st : BotState) (gameId score : Int)
    (multiplier now : Json) : Option (BotState × Except PyError Bool) :=
  match interpRefreshLoop fuel now 12 st with
  | none => none
  | some st1 =>
    match interpRequest fuel st1 .playGameGetReward 0 with
    | none => none
    | some (st2, resp) =>
      let (stats2, r) := applyPlayResult score multiplier resp st2.stats
      some ({ st2 with stats := stats2 }, r)

/-! ## The waiting-for-energy countdown in `main` -/

/-- How the waiting-for-energy loop ends. -/
inductive WaitExit where
  | recharged           -- a poll succeeded and Energy > 0: break
  | timedOut            -- the 10800-tick countdown completed
  | raised (e : PyError) -- the Energy > 0 comparison raised
deriving Repr, DecidableEq

/-- The countdown loop body:
`while not progress.finished: sleep(1); advance(1);
   if completed % 300 == 0:
     if api_client.update_energy() and api_client.stats["Energy"] > 0: break`.
`budget` is the number of ticks left until the total of 10800; `completed`
is the ticks elapsed so far. Returns the final state, the exit kind, and the
total elapsed ticks. -/
def interpWaitLoop (fuel : Nat) (now : Json) :
    Nat → Nat → BotState → Option (BotState × WaitExit × Nat)
  | 0, completed, st => some (st, .timedOut, completed)
  | Nat.succ budget, completed, st =>
    let c := completed + 1
    if c % 300 = 0 then
      match interpUpdateEnergy fuel st now with
      | none => none
      | some (st1, ok) =>
        if ok then
          match pyGtInt st1.stats.energy 0 with
          | .error e => some (st1, .raised e, c)
          | .ok true => some (st1, .recharged, c)
          | .ok false => interpWaitLoop fuel now budget c st1
        else
          interpWaitLoop fuel now budget c st1
    else
      interpWaitLoop fuel now budget c st

/-- The full wait (`Progress` task with `total=10800`, starting at 0). -/
def interpWait (fuel : Nat) (st : BotState) (now : Json) :
    Option (BotState × WaitExit × Nat) :=
  interpWaitLoop fuel now 10800 0 st

/-! ## One iteration of the `main` loop -/

/-- How one iteration of the `while True` loop in `main` ends. -/
inductive IterOutcome where
  | playedOk          -- play_game returned True → 5–10s "Preparing next game"
  | playFailed        -- play_game returned False → 30s backoff
  | continued         -- wait ended with Energy still <= 0 → `continue`
  | caught (e : PyError) -- an exception reached `except Exception` → 30s backoff
deriving Repr, DecidableEq

/-- Result of one `main`-loop iteration: the final state, whether the
`Energy <= 0` waiting branch was entered, whether `play_game` was invoked,
and how the iteration ended. -/
structure IterResult where
  state : BotState
  enteredWait : Bool
  playedGame : Bool
  outcome : IterOutcome
deriving Repr

/-- The tail of a `main` iteration once it decides to play:
`score = random.randint(170, 200); multiplier = "1";
 if api_client.play_game(game_id, score, multiplier): ... else: ...`
(`score` is the sampled random value; `game_id = 1`). -/
def runPlay (fuel : Nat) (st : BotState) (score : Int) (now : Json)
    (waited : Bool) : Option IterResult :=
  match interpPlayGame fuel st 1 score (.str "1") now with
  | none => none
  | some (st1, .error e) => some ⟨st1, waited, true, .caught e⟩
  | some (st1, .ok true) => some ⟨st1, waited, true, .playedOk⟩
  | some (st1, .ok false) => some ⟨st1, waited, true, .playFailed⟩

/-- One iteration of `main`'s `while True` loop: `update_energy()`; if
`stats["Energy"] <= 0` enter the waiting countdown and afterwards `continue`
when energy is still `<= 0`; otherwise play. Exceptions raised inside the
iteration are caught by `except Exception` (30s backoff). -/
def interpMainIter (fuel : Nat) (st : BotState) (score : Int) (now : Json) :
    Option IterResult :=
  match interpUpdateEnergy fuel st now with
  | none => none
  | some (st1, _) =>
    match pyLeInt st1.stats.energy 0 with
    | .error e => some ⟨st1, false, false, .caught e⟩
    | .ok true =>
      match interpWait fuel st1 now with
      | none => none
      | some (st2, exitKind, _) =>
        match exitKind with
        | .raised e => some ⟨st2, true, false, .caught e⟩
        | _ =>
          match pyLeInt st2.stats.energy 0 with
          | .error e => some ⟨st2, true, false, .caught e⟩
          | .ok true => some ⟨st2, true, false, .continued⟩
          | .ok false => runPlay fuel st2 score now true
    | .ok false => runPlay fuel st1 score now false

/-- One play episode as driven by the main loop: the sampled random score,
the oracle responses consumed by the twelve display refreshes, and the body
of the SubmitPlay response. -/
structure Episode where
  score : Int
  polls : List HttpResult
  submit : Json

/-- Run a sequence of `play_game` episodes, presenting each episode's oracle
responses in turn: the twelve poll responses followed by a successful
transport of the submit body (`game_id = 1`, `multiplier = "1"` as in
`main`). -/
def runEpisodes (fuel : Nat) (now : Json) : BotState → List Episode → Option BotState
  | st, [] => some st
  | st, e :: rest =>
    match interpPlayGame fuel { st with responses := e.polls ++ [.success e.submit] } 1 e.score (.str "1") now with
    | none => none
    | some (st1, _) => runEpisodes fuel now st1 rest

/-! ## Trace helpers -/

/-- The responses received by the HTTP attempts against a given endpoint,
in order, as recorded in a trace. -/
def attemptsTo (ep : Endpoint) (l : List Event) : List HttpResult :=
  l.filterMap fun ev =>
    match ev with
    | .attempt ep' r => if ep' = ep then some r else none
    | _ => none

/-- Number of `update_energy` invocations recorded in a trace. -/
def countPoll (l : List Event) : Nat :=
  (l.filter fun ev => match ev with | .pollEnergy => true | _ => false).length

/-- Is this response an HTTP 401? -/
def isHttp401 : HttpResult → Bool
  | .httpError code => code == 401
  | _ => false

/-- Every response in the list except possibly the last one is a 401 —
i.e. a new attempt was issued only after a 401. -/
def chain401 : List HttpResult → Bool
  | [] => true
  | [_] => true
  | r :: s :: rest => isHttp401 r && chain401 (s :: rest)

/-! ## Concrete fixtures used to evaluate the model on closed inputs -/

/-- A client state holding a (truthy) bearer token, a readable `data.txt`,
no persisted token file, an empty trace, the initial statistics and the
given oracle of HTTP responses. -/
def mkState (resps : List HttpResult) : BotState :=
  ⟨.str "tok", true, .missing, resps, [], initStats⟩

/-- A `getUserGameInfo` response reporting the given energy. -/
def okEnergy (n : Int) : HttpResult :=
  .success (.obj [("status", .str "OK"), ("data", .obj [("userCurrentEnergy", .num n)])])

/-- A logically failed response (transport succeeded, status not "OK"). -/
def failStatus : HttpResult :=
  .success (.obj [("status", .str "FAIL")])

/-- A `playGameGetReward` response with status "OK" and a `data` object. -/
def okSubmit (n : Int) : Json :=
  .obj [("status", .str "OK"), ("data", .obj [("userCurrentEnergy", .num n)])]

/-- A `user/getToken` response carrying a fresh token. -/
def okTokenResp : Json :=
  .obj [("status", .str "OK"), ("data", .obj [("token", .str "tok2")])]

/-! ## Helper lemmas -/

theorem attemptsTo_append (ep : Endpoint) (a b : List Event) :
    attemptsTo ep (a ++ b) = attemptsTo ep a ++ attemptsTo ep b := by
  simp [attemptsTo]

theorem countPoll_append (a b : List Event) :
    countPoll (a ++ b) = countPoll a + countPoll b := by
  simp [countPoll]

theorem interpCall_frame (f : Nat) : ∀ st c st' r,
    interpCall f st c = some (st', r) →
    st'.stats = st.stats ∧ st'.dataFileOk = st.dataFileOk ∧
    ∃ ext, st'.log = st.log ++ ext ∧ countPoll ext = 0 ∧
      ∀ ep', ep' ≠ Endpoint.getToken → (∀ k, c ≠ .req ep' k) → attemptsTo ep' ext = [] := by
  induction f with
  | zero => intro st c st' r h; simp [interpCall] at h
  | succ f ih =>
    intro st c st' r h
    cases c with
    | refreshToken =>
      simp only [interpCall] at h
      by_cases hd : st.dataFileOk
      · simp only [hd, if_true] at h
        split at h
        · exact Option.noConfusion h
        · rename_i st1 resp heq
          obtain ⟨hstats, hdfo, ext1, hlog, hcnt, hav⟩ := ih _ _ _ _ heq
          simp only at hstats hdfo hlog
          have hext : ∀ st'' : BotState, st''.log = st1.log → st''.log = st.log ++ (Event.refresh :: ext1) := by
            intro st'' hl
            rw [hl, hlog, List.append_assoc]
            rfl
          have hcnt' : countPoll (Event.refresh :: ext1) = 0 := by
            simpa [countPoll] using hcnt
          have hav' : ∀ ep', ep' ≠ Endpoint.getToken →
              (∀ k, (Call.refreshToken : Call) ≠ .req ep' k) →
              attemptsTo ep' (Event.refresh :: ext1) = [] := by
            intro ep' h1 _
            have : attemptsTo ep' ext1 = [] := by
              refine hav ep' h1 ?_
              intro k hk
              exact h1 (by injection hk with h2 _; exact h2.symm) 
            simpa [attemptsTo, this]
          split at h
          · rename_i t hex
            simp only [Option.some.injEq, Prod.mk.injEq] at h
            obtain ⟨h1, h2⟩ := h
            subst h1
            exact ⟨hstats, by simp [hdfo, hd], Event.refresh :: ext1, hext _ rfl, hcnt', hav'⟩
          · simp only [Option.some.injEq, Prod.mk.injEq] at h
            obtain ⟨h1, h2⟩ := h
            subst h1
            exact ⟨hstats, by simp [hdfo, hd], Event.refresh :: ext1, hext _ rfl, hcnt', hav'⟩
      · have hd' : st.dataFileOk = false := by simpa using hd
        simp only [hd', Bool.false_eq_true, if_false, Option.some.injEq, Prod.mk.injEq] at h
        obtain ⟨h1, h2⟩ := h
        subst h1
        refine ⟨rfl, by simp [hd'], [Event.refresh], rfl, by simp [countPoll], ?_⟩
        intro ep' _ _
        simp [attemptsTo]
    | req ep rc =>
      simp only [interpCall] at h
      by_cases hrc : 3 ≤ rc
      · simp only [hrc, if_true, Option.some.injEq, Prod.mk.injEq] at h
        obtain ⟨h1, h2⟩ := h
        subst h1
        exact ⟨rfl, rfl, [], by simp, by simp [countPoll], fun ep' _ _ => by simp [attemptsTo]⟩
      · simp only [hrc, if_false] at h
        cases hauth : (if pyTruthy st.token then some st
            else (interpCall f st .refreshToken).map Prod.fst) with
        | none => rw [hauth] at h; exact Option.noConfusion h
        | some st1 =>
          rw [hauth] at h
          have hfr1 : st1.stats = st.stats ∧ st1.dataFileOk = st.dataFileOk ∧
              ∃ ext0, st1.log = st.log ++ ext0 ∧ countPoll ext0 = 0 ∧
                (∀ ep', ep' ≠ Endpoint.getToken → attemptsTo ep' ext0 = []) := by
            by_cases htok : pyTruthy st.token
            · simp only [htok, if_true, Option.some.injEq] at hauth
              subst hauth
              exact ⟨rfl, rfl, [], by simp, by simp [countPoll], fun ep' h1 => by simp [attemptsTo]⟩
            · simp only [htok, Bool.false_eq_true, if_false] at hauth
              cases href : interpCall f st .refreshToken with
              | none => rw [href] at hauth; simp at hauth
              | some p =>
                rw [href] at hauth
                obtain ⟨stA, rA⟩ := p
                simp only [Option.map_some', Option.some.injEq] at hauth
                subst hauth
                obtain ⟨hs, hdd, ext0, hl, hc, hava⟩ := ih _ _ _ _ href
                exact ⟨hs, hdd, ext0, hl, hc,
                  fun ep' h1 => hava ep' h1 (fun k hk => Call.noConfusion hk)⟩
          simp only at h
          obtain ⟨hs1, hd1, ext0, hl0, hc0, hav0⟩ := hfr1
          have leaf : ∀ (r0 : HttpResult) (rest : List HttpResult) (st2 : BotState),
              st2 = { st1 with responses := rest, log := st1.log ++ [.attempt ep r0] } →
              st2.stats = st.stats ∧ st2.dataFileOk = st.dataFileOk ∧
              ∃ ext, st2.log = st.log ++ ext ∧ countPoll ext = 0 ∧
                ∀ ep', ep' ≠ Endpoint.getToken → (∀ k, (Call.req ep rc : Call) ≠ .req ep' k) →
                  attemptsTo ep' ext = [] := by
            intro r0 rest st2 hst2
            subst hst2
            refine ⟨by simp [hs1], by simp [hd1], ext0 ++ [.attempt ep r0], ?_, ?_, ?_⟩
            · simp [hl0, List.append_assoc]
            · rw [countPoll_append, hc0]
              simp [countPoll]
            · intro ep' h1 h2
              have hne : ep ≠ ep' := fun he => h2 rc (by rw [he])
              rw [attemptsTo_append, hav0 ep' h1]
              simp [attemptsTo, hne]
          cases hresp : st1.responses with
          | nil =>
            rw [hresp] at h
            simp only [nextResponse, Option.some.injEq, Prod.mk.injEq] at h
            obtain ⟨h1, h2⟩ := h
            exact h1 ▸ leaf .transportError [] _ rfl
          | cons r0 rest =>
            rw [hresp] at h
            simp only [nextResponse] at h
            cases r0 with
            | success body =>
              simp only [Option.some.injEq, Prod.mk.injEq] at h
              obtain ⟨h1, h2⟩ := h
              exact h1 ▸ leaf (.success body) rest _ rfl
            | transportError =>
              simp only [Option.some.injEq, Prod.mk.injEq] at h
              obtain ⟨h1, h2⟩ := h
              exact h1 ▸ leaf .transportError rest _ rfl
            | httpError code =>
              simp only at h
              by_cases hcode : code = 401
              · subst hcode
                rw [if_pos rfl] at h
                cases href2 : interpCall f { st1 with responses := rest, log := st1.log ++ [Event.attempt ep (HttpResult.httpError 401)] } Call.refreshToken with
                | none => rw [href2] at h; exact Option.noConfusion h
                | some p =>
                  rw [href2] at h
                  obtain ⟨st3, r3⟩ := p
                  simp only at h
                  obtain ⟨hsB, hdB, extB, hlB, hcB, havB⟩ := ih _ _ _ _ href2
                  obtain ⟨hsC, hdC, extC, hlC, hcC, havC⟩ := ih _ _ _ _ h
                  simp only at hsB hdB hlB
                  refine ⟨by rw [hsC, hsB, hs1], by rw [hdC, hdB, hd1],
                    ((ext0 ++ [.attempt ep (.httpError 401)]) ++ extB) ++ extC, ?_, ?_, ?_⟩
                  · rw [hlC, hlB, hl0]
                    simp [List.append_assoc]
                  · rw [countPoll_append, countPoll_append, countPoll_append, hc0, hcB, hcC]
                    simp [countPoll]
                  · intro ep' h1 h2
                    have hne : ep ≠ ep' := fun he => h2 rc (by rw [he])
                    have hB := havB ep' h1 (fun k hk => Call.noConfusion hk)
                    have hinj : ∀ k : Nat, Call.req ep (rc + 1) = Call.req ep' k → False := by
                      intro k hk
                      injection hk with a b
                      exact hne a
                    have hC := havC ep' h1 hinj
                    rw [attemptsTo_append, attemptsTo_append, attemptsTo_append,
                      hav0 ep' h1, hB, hC]
                    simp [attemptsTo, hne]
              · simp only [hcode, if_false, Option.some.injEq, Prod.mk.injEq] at h
                obtain ⟨h1, h2⟩ := h
                exact h1 ▸ leaf (.httpError code) rest _ rfl

theorem interpRequest_step_non401 (f : Nat) (st : BotState) (ep : Endpoint)
    (rc : Nat) (r : HttpResult) (rest : List HttpResult)
    (htok : pyTruthy st.token = true) (hrc : rc < 3)
    (hr : isHttp401 r = false) (hresp : st.responses = r :: rest) :
    ∃ v, interpRequest (f + 1) st ep rc =
      some ({ st with responses := rest, log := st.log ++ [.attempt ep r] }, v) := by
  have hnle : ¬ 3 ≤ rc := Nat.not_le.mpr hrc
  cases r with
  | success body =>
    exact ⟨body, by simp [interpRequest, interpCall, hnle, htok, hresp, nextResponse]⟩
  | transportError =>
    exact ⟨.null, by simp [interpRequest, interpCall, hnle, htok, hresp, nextResponse]⟩
  | httpError code =>
    have hc : code ≠ 401 := by
      intro hcc
      rw [hcc] at hr
      simp [isHttp401] at hr
    exact ⟨.null, by simp [interpRequest, interpCall, hnle, htok, hresp, nextResponse, hc]⟩

theorem applyEnergyResult_shape (resp now : Json) (stats : Stats) :
    ∃ e lu b, applyEnergyResult resp now stats =
      ({ stats with energy := e, lastUpdate := lu }, b) := by
  unfold applyEnergyResult
  cases hx : energyFromResponse resp with
  | error e => exact ⟨stats.energy, stats.lastUpdate, false, rfl⟩
  | ok o =>
    cases o with
    | none => exact ⟨stats.energy, stats.lastUpdate, false, rfl⟩
    | some v => exact ⟨v, now, true, rfl⟩

theorem interpUpdateEnergy_step (f : Nat) (st : BotState) (now : Json)
    (r : HttpResult) (rest : List HttpResult)
    (htok : pyTruthy st.token = true)
    (hr : isHttp401 r = false) (hresp : st.responses = r :: rest) :
    ∃ e lu b, interpUpdateEnergy (f + 1) st now =
      some ({ st with responses := rest, log := st.log ++ [.pollEnergy, .attempt .getUserGameInfo r], stats := { st.stats with energy := e, lastUpdate := lu } }, b) := by
  have hstep := interpRequest_step_non401 f
    { st with log := st.log ++ [.pollEnergy] } .getUserGameInfo 0 r rest
    (by simpa using htok) (by decide) hr (by simpa using hresp)
  obtain ⟨v, hv⟩ := hstep
  obtain ⟨e, lu, b, hb⟩ := applyEnergyResult_shape v now st.stats
  refine ⟨e, lu, b, ?_⟩
  simp only [interpUpdateEnergy]
  rw [hv]
  simp [hb, List.append_assoc]

theorem interpRefreshLoop_consume (f : Nat) (now : Json) :
    ∀ (polls : List HttpResult) (st : BotState) (rest2 : List HttpResult),
    pyTruthy st.token = true →
    (∀ r ∈ polls, isHttp401 r = false) →
    st.responses = polls ++ rest2 →
    ∃ ext e lu, interpRefreshLoop (f + 1) now polls.length st =
      some { st with responses := rest2, log := st.log ++ ext, stats := { st.stats with energy := e, lastUpdate := lu } } := by
  intro polls
  induction polls with
  | nil =>
    intro st rest2 htok h401 hresp
    refine ⟨[], st.stats.energy, st.stats.lastUpdate, ?_⟩
    simp only [List.length_nil, interpRefreshLoop]
    simp only [List.nil_append] at hresp
    rw [← hresp]
    simp
  | cons r ps ih =>
    intro st rest2 htok h401 hresp
    obtain ⟨e1, lu1, b1, hstep⟩ := interpUpdateEnergy_step f st now r (ps ++ rest2)
      htok (h401 r (by simp)) (by simpa using hresp)
    have htok1 : pyTruthy ({ st with responses := ps ++ rest2, log := st.log ++ [.pollEnergy, .attempt .getUserGameInfo r], stats := { st.stats with energy := e1, lastUpdate := lu1 } } : BotState).token = true := by
      simpa using htok
    obtain ⟨ext2, e2, lu2, hrec⟩ := ih _ rest2 htok1 (fun x hx => h401 x (by simp [hx])) (by simp)
    refine ⟨[Event.pollEnergy, .attempt .getUserGameInfo r] ++ ext2, e2, lu2, ?_⟩
    simp only [List.length_cons, interpRefreshLoop]
    simp only [hstep]
    rw [hrec]
    simp [List.append_assoc]

theorem interpUpdateEnergy_frame (f : Nat) (st : BotState) (now : Json)
    (st' : BotState) (b : Bool)
    (h : interpUpdateEnergy f st now = some (st', b)) :
    st'.dataFileOk = st.dataFileOk ∧
    st'.stats.totalGames = st.stats.totalGames ∧
    st'.stats.lastScore = st.stats.lastScore ∧
    st'.stats.multiplier = st.stats.multiplier ∧
    st'.stats.totalPoints = st.stats.totalPoints ∧
    ∃ ext, st'.log = st.log ++ ext ∧
      attemptsTo .playGameGetReward ext = [] := by
  simp only [interpUpdateEnergy] at h
  cases hreq : interpRequest f { st with log := st.log ++ [Event.pollEnergy] } .getUserGameInfo 0 with
  | none => rw [hreq] at h; exact Option.noConfusion h
  | some p =>
    obtain ⟨st1, resp⟩ := p
    simp only [hreq] at h
    obtain ⟨hs1, hd1, ext1, hl1, _, hav1⟩ := interpCall_frame f _ _ _ _ hreq
    simp only at hs1 hd1 hl1
    obtain ⟨e1, lu1, b1, hb1⟩ := applyEnergyResult_shape resp now st1.stats
    simp only [hb1, Option.some.injEq, Prod.mk.injEq] at h
    obtain ⟨h1, h2⟩ := h
    subst h1
    have hpg : attemptsTo Endpoint.playGameGetReward ext1 = [] := by
      refine hav1 Endpoint.playGameGetReward (by simp) ?_
      intro k hk
      exact Call.noConfusion hk (fun hek _ => Endpoint.noConfusion hek)
    refine ⟨by simp [hd1], by simp [hs1], by simp [hs1], by simp [hs1], by simp [hs1],
      Event.pollEnergy :: ext1, ?_, ?_⟩
    · simp only [hl1]
      simp [List.append_assoc]
    · rw [show (Event.pollEnergy :: ext1) = [Event.pollEnergy] ++ ext1 from rfl,
        attemptsTo_append, hpg]
      simp [attemptsTo]

theorem interpRefreshLoop_frame (f : Nat) (now : Json) :
    ∀ (n : Nat) (st st' : BotState),
    interpRefreshLoop f now n st = some st' →
    st'.stats.totalGames = st.stats.totalGames ∧
    st'.stats.lastScore = st.stats.lastScore ∧
    st'.stats.multiplier = st.stats.multiplier ∧
    st'.stats.totalPoints = st.stats.totalPoints ∧
    ∃ ext, st'.log = st.log ++ ext ∧
      attemptsTo .playGameGetReward ext = [] := by
  intro n
  induction n with
  | zero =>
    intro st st' h
    simp only [interpRefreshLoop, Option.some.injEq] at h
    subst h
    exact ⟨rfl, rfl, rfl, rfl, [], by simp, by simp [attemptsTo]⟩
  | succ k ih =>
    intro st st' h
    simp only [interpRefreshLoop] at h
    cases hstep : interpUpdateEnergy f st now with
    | none => rw [hstep] at h; exact Option.noConfusion h
    | some p =>
      obtain ⟨st1, b1⟩ := p
      simp only [hstep] at h
      obtain ⟨_, hg1, hl1, hm1, hp1, ext1, hlog1, hpg1⟩ :=
        interpUpdateEnergy_frame f st now st1 b1 hstep
      obtain ⟨hg2, hl2, hm2, hp2, ext2, hlog2, hpg2⟩ := ih st1 st' h
      refine ⟨by rw [hg2, hg1], by rw [hl2, hl1], by rw [hm2, hm1], by rw [hp2, hp1],
        ext1 ++ ext2, ?_, ?_⟩
      · rw [hlog2, hlog1, List.append_assoc]
      · rw [attemptsTo_append, hpg1, hpg2]
        rfl

theorem applyPlayResult_false (score : Int) (mult resp : Json) (stats stats' : Stats)
    (h : applyPlayResult score mult resp stats = (stats', .ok false)) : stats' = stats := by
  unfold applyPlayResult at h
  by_cases ht : pyTruthy resp
  · rw [if_pos ht] at h
    cases hs : pyGet resp "status" with
    | error e => simp only [hs] at h; simp at h
    | ok s =>
      simp only [hs] at h
      by_cases hok : s.isStr "OK"
      · rw [if_pos hok] at h
        by_cases hd : pyContains resp "data"
        · rw [if_pos hd] at h
          cases hdx : pyIndex resp "data" with
          | error e => simp only [hdx] at h; simp at h
          | ok d =>
            simp only [hdx] at h
            cases hgd : pyGetD d "userCurrentEnergy" stats.energy with
            | error e => simp only [hgd] at h; simp at h
            | ok v => simp only [hgd] at h; simp at h
        · rw [if_neg hd] at h
          simp at h
      · rw [if_neg hok] at h
        simp only [Prod.mk.injEq] at h
        exact h.1.symm
  · rw [if_neg ht] at h
    simp only [Prod.mk.injEq] at h
    exact h.1.symm

theorem interpPlayGame_failed_frame (fuel : Nat) (st : BotState)
    (gameId score : Int) (mult now : Json) (st' : BotState)
    (h : interpPlayGame fuel st gameId score mult now = some (st', .ok false)) :
    st'.stats.totalGames = st.stats.totalGames ∧
    st'.stats.lastScore = st.stats.lastScore ∧
    st'.stats.multiplier = st.stats.multiplier ∧
    st'.stats.totalPoints = st.stats.totalPoints := by
  simp only [interpPlayGame] at h
  cases hloop : interpRefreshLoop fuel now 12 st with
  | none => rw [hloop] at h; exact Option.noConfusion h
  | some st1 =>
    simp only [hloop] at h
    cases hreq : interpRequest fuel st1 .playGameGetReward 0 with
    | none => rw [hreq] at h; exact Option.noConfusion h
    | some p =>
      obtain ⟨st2, resp⟩ := p
      simp only [hreq] at h
      obtain ⟨hg1, hl1, hm1, hp1, _, _, _⟩ := interpRefreshLoop_frame fuel now 12 st st1 hloop
      obtain ⟨hs2, _, _⟩ := interpCall_frame fuel _ _ _ _ hreq
      cases happly : applyPlayResult score mult resp st2.stats with
      | mk stats2 r2 =>
        simp only [happly, Option.some.injEq, Prod.mk.injEq] at h
        obtain ⟨h1, h2⟩ := h
        subst h1
        subst h2
        have := applyPlayResult_false score mult resp st2.stats stats2 happly
        subst this
        rw [hs2]
        exact ⟨hg1, hl1, hm1, hp1⟩

theorem chain401_cons (x : HttpResult) (l : List HttpResult)
    (hx : isHttp401 x = true) (hl : chain401 l = true) :
    chain401 (x :: l) = true := by
  cases l with
  | nil => rfl
  | cons y ys => simp [chain401, hx, hl]

theorem chain401_single (x : HttpResult) : chain401 [x] = true := rfl

theorem interpRequest_chain (f : Nat) : ∀ st ep rc st' r,
    ep ≠ Endpoint.getToken →
    interpCall f st (.req ep rc) = some (st', r) →
    ∃ ext, st'.log = st.log ++ ext ∧
      (attemptsTo ep ext).length ≤ 3 - rc ∧
      chain401 (attemptsTo ep ext) = true := by
  induction f with
  | zero => intro st ep rc st' r hep h; simp [interpCall] at h
  | succ f ih =>
    intro st ep rc st' r hep h
    simp only [interpCall] at h
    by_cases hrc : 3 ≤ rc
    · simp only [hrc, if_true, Option.some.injEq, Prod.mk.injEq] at h
      obtain ⟨h1, h2⟩ := h
      subst h1
      exact ⟨[], by simp, by simp [attemptsTo], by simp [attemptsTo, chain401]⟩
    · simp only [hrc, if_false] at h
      cases hauth : (if pyTruthy st.token then some st
          else (interpCall f st .refreshToken).map Prod.fst) with
      | none => rw [hauth] at h; exact Option.noConfusion h
      | some st1 =>
        rw [hauth] at h
        simp only at h
        have hfr1 : ∃ ext0, st1.log = st.log ++ ext0 ∧ attemptsTo ep ext0 = [] := by
          by_cases htok : pyTruthy st.token
          · simp only [htok, if_true, Option.some.injEq] at hauth
            subst hauth
            exact ⟨[], by simp, by simp [attemptsTo]⟩
          · simp only [htok, Bool.false_eq_true, if_false] at hauth
            cases href : interpCall f st .refreshToken with
            | none => rw [href] at hauth; simp at hauth
            | some p =>
              rw [href] at hauth
              obtain ⟨stA, rA⟩ := p
              simp only [Option.map_some', Option.some.injEq] at hauth
              subst hauth
              obtain ⟨_, _, ext0, hl, _, hava⟩ := interpCall_frame f _ _ _ _ href
              exact ⟨ext0, hl, hava ep hep (fun k hk => Call.noConfusion hk)⟩
        obtain ⟨ext0, hl0, hav0⟩ := hfr1
        have hone : ∀ r0 : HttpResult,
            attemptsTo ep (ext0 ++ [Event.attempt ep r0]) = [r0] := by
          intro r0
          rw [attemptsTo_append, hav0]
          simp [attemptsTo]
        have hlen1 : (1 : Nat) ≤ 3 - rc := by omega
        cases hresp : st1.responses with
        | nil =>
          rw [hresp] at h
          simp only [nextResponse, Option.some.injEq, Prod.mk.injEq] at h
          obtain ⟨h1, h2⟩ := h
          subst h1
          refine ⟨ext0 ++ [Event.attempt ep .transportError], by simp [hl0, List.append_assoc], ?_, ?_⟩
          · rw [hone]; simpa using hlen1
          · rw [hone]; exact chain401_single _
        | cons r0 rest =>
          rw [hresp] at h
          simp only [nextResponse] at h
          cases r0 with
          | success body =>
            simp only [Option.some.injEq, Prod.mk.injEq] at h
            obtain ⟨h1, h2⟩ := h
            subst h1
            refine ⟨ext0 ++ [Event.attempt ep (.success body)], by simp [hl0, List.append_assoc], ?_, ?_⟩
            · rw [hone]; simpa using hlen1
            · rw [hone]; exact chain401_single _
          | transportError =>
            simp only [Option.some.injEq, Prod.mk.injEq] at h
            obtain ⟨h1, h2⟩ := h
            subst h1
            refine ⟨ext0 ++ [Event.attempt ep .transportError], by simp [hl0, List.append_assoc], ?_, ?_⟩
            · rw [hone]; simpa using hlen1
            · rw [hone]; exact chain401_single _
          | httpError code =>
            simp only at h
            by_cases hcode : code = 401
            · subst hcode
              rw [if_pos rfl] at h
              cases href2 : interpCall f { st1 with responses := rest, log := st1.log ++ [Event.attempt ep (HttpResult.httpError 401)] } Call.refreshToken with
              | none => rw [href2] at h; exact Option.noConfusion h
              | some p =>
                rw [href2] at h
                obtain ⟨st3, r3⟩ := p
                simp only at h
                obtain ⟨_, _, extB, hlB, _, havB⟩ := interpCall_frame f _ _ _ _ href2
                simp only at hlB
                have hBempty : attemptsTo ep extB = [] :=
                  havB ep hep (fun k hk => Call.noConfusion hk)
                obtain ⟨extC, hlC, hlenC, hchainC⟩ := ih _ _ _ _ _ hep h
                refine ⟨((ext0 ++ [Event.attempt ep (HttpResult.httpError 401)]) ++ extB) ++ extC, ?_, ?_, ?_⟩
                · rw [hlC, hlB, hl0]
                  simp [List.append_assoc]
                · rw [attemptsTo_append, attemptsTo_append, hone, hBempty]
                  simp only [List.append_nil, List.length_append, List.length_singleton]
                  omega
                · rw [attemptsTo_append, attemptsTo_append, hone, hBempty]
                  simp only [List.append_nil, List.singleton_append]
                  exact chain401_cons _ _ (by simp [isHttp401]) hchainC
            · rw [if_neg hcode] at h
              simp only [Option.some.injEq, Prod.mk.injEq] at h
              obtain ⟨h1, h2⟩ := h
              subst h1
              refine ⟨ext0 ++ [Event.attempt ep (.httpError code)], by simp [hl0, List.append_assoc], ?_, ?_⟩
              · rw [hone]; simpa using hlen1
              · rw [hone]; exact chain401_single _

theorem interpUpdateEnergy_countPoll (f : Nat) (st : BotState) (now : Json)
    (st' : BotState) (b : Bool)
    (h : interpUpdateEnergy f st now = some (st', b)) :
    countPoll st'.log = countPoll st.log + 1 := by
  simp only [interpUpdateEnergy] at h
  cases hreq : interpRequest f { st with log := st.log ++ [Event.pollEnergy] } .getUserGameInfo 0 with
  | none => rw [hreq] at h; exact Option.noConfusion h
  | some p =>
    obtain ⟨st1, resp⟩ := p
    simp only [hreq] at h
    obtain ⟨_, _, ext1, hl1, hc1, _⟩ := interpCall_frame f _ _ _ _ hreq
    simp only at hl1
    obtain ⟨e1, lu1, b1, hb1⟩ := applyEnergyResult_shape resp now st1.stats
    simp only [hb1, Option.some.injEq, Prod.mk.injEq] at h
    obtain ⟨h1, _⟩ := h
    subst h1
    simp only [hl1, List.append_assoc, countPoll_append, hc1]
    simp [countPoll]

theorem interpWaitLoop_spec (fuel : Nat) (now : Json) :
    ∀ (budget completed : Nat) (st st' : BotState) (ex : WaitExit) (n : Nat),
    interpWaitLoop fuel now budget completed st = some (st', ex, n) →
    n ≤ completed + budget ∧ completed ≤ n ∧
    countPoll st'.log + completed / 300 = countPoll st.log + n / 300 ∧
    (ex = .recharged → n % 300 = 0 ∧ 0 < n ∧ pyGtInt st'.stats.energy 0 = .ok true) ∧
    (ex = .timedOut → n = completed + budget) := by
  intro budget
  induction budget with
  | zero =>
    intro completed st st' ex n h
    simp only [interpWaitLoop, Option.some.injEq, Prod.mk.injEq] at h
    obtain ⟨h1, h2, h3⟩ := h
    subst h1; subst h2; subst h3
    exact ⟨by omega, by omega, rfl, fun hx => WaitExit.noConfusion hx, fun _ => by omega⟩
  | succ budget ih =>
    intro completed st st' ex n h
    simp only [interpWaitLoop] at h
    by_cases hmod : (completed + 1) % 300 = 0
    · have hdvd : 300 ∣ completed + 1 := Nat.dvd_of_mod_eq_zero hmod
      have hdiv : (completed + 1) / 300 = completed / 300 + 1 := by
        rw [Nat.succ_div, if_pos hdvd]
      rw [if_pos hmod] at h
      cases hpoll : interpUpdateEnergy fuel st now with
      | none => rw [hpoll] at h; exact Option.noConfusion h
      | some p =>
        obtain ⟨st1, ok⟩ := p
        simp only [hpoll] at h
        have hcount := interpUpdateEnergy_countPoll fuel st now st1 ok hpoll
        cases ok with
        | false =>
          simp only [Bool.false_eq_true, if_false] at h
          obtain ⟨hb1, hb2, hb3, hb4, hb5⟩ := ih (completed + 1) st1 st' ex n h
          exact ⟨by omega, by omega, by rw [hcount, hdiv] at hb3; omega,
            hb4, fun hx => by have := hb5 hx; omega⟩
        | true =>
          simp only [if_true] at h
          cases hgt : pyGtInt st1.stats.energy 0 with
          | error e =>
            simp only [hgt, Option.some.injEq, Prod.mk.injEq] at h
            obtain ⟨h1, h2, h3⟩ := h
            subst h1; subst h2; subst h3
            exact ⟨by omega, by omega, by rw [hcount, hdiv]; omega,
              fun hx => WaitExit.noConfusion hx, fun hx => WaitExit.noConfusion hx⟩
          | ok gt =>
            cases gt with
            | true =>
              simp only [hgt, Option.some.injEq, Prod.mk.injEq] at h
              obtain ⟨h1, h2, h3⟩ := h
              subst h1; subst h2; subst h3
              exact ⟨by omega, by omega, by rw [hcount, hdiv]; omega,
                fun _ => ⟨hmod, by omega, hgt⟩, fun hx => WaitExit.noConfusion hx⟩
            | false =>
              simp only [hgt] at h
              obtain ⟨hb1, hb2, hb3, hb4, hb5⟩ := ih (completed + 1) st1 st' ex n h
              exact ⟨by omega, by omega, by rw [hcount, hdiv] at hb3; omega,
                hb4, fun hx => by have := hb5 hx; omega⟩
    · rw [if_neg hmod] at h
      have hndvd : ¬ 300 ∣ completed + 1 := by
        intro hd
        obtain ⟨k, hk⟩ := hd
        exact hmod (hk ▸ Nat.mul_mod_right 300 k)
      have hdiv : (completed + 1) / 300 = completed / 300 := by
        rw [Nat.succ_div, if_neg hndvd]
        exact Nat.add_zero _
      obtain ⟨hb1, hb2, hb3, hb4, hb5⟩ := ih (completed + 1) st st' ex n h
      exact ⟨by omega, by omega, by rw [hdiv] at hb3; omega, hb4,
        fun hx => by have := hb5 hx; omega⟩

theorem interpWaitLoop_recharge_step (fuel : Nat) (now : Json)
    (budget completed : Nat) (st st1 : BotState)
    (hmod : (completed + 1) % 300 = 0)
    (hpoll : interpUpdateEnergy fuel st now = some (st1, true))
    (hgt : pyGtInt st1.stats.energy 0 = .ok true) :
    interpWaitLoop fuel now (budget + 1) completed st =
      some (st1, .recharged, completed + 1) := by
  simp [interpWaitLoop, hmod, hpoll, hgt]

theorem runPlay_shape (fuel : Nat) (st : BotState) (score : Int) (now : Json)
    (waited : Bool) (res : IterResult)
    (h : runPlay fuel st score now waited = some res) :
    res.enteredWait = waited ∧ res.playedGame = true := by
  simp only [runPlay] at h
  cases hpg : interpPlayGame fuel st 1 score (.str "1") now with
  | none => rw [hpg] at h; exact Option.noConfusion h
  | some p =>
    obtain ⟨st1, r⟩ := p
    simp only [hpg] at h
    cases r with
    | error e =>
      simp only [Option.some.injEq] at h
      subst h
      exact ⟨rfl, rfl⟩
    | ok bb =>
      cases bb with
      | true =>
        simp only [Option.some.injEq] at h
        subst h
        exact ⟨rfl, rfl⟩
      | false =>
        simp only [Option.some.injEq] at h
        subst h
        exact ⟨rfl, rfl⟩

theorem interpUpdateToken_success_step (f : Nat) (s : BotState)
    (tokResp t : Json) (rest' : List HttpResult)
    (hdfo : s.dataFileOk = true) (htok : pyTruthy s.token = true)
    (hresp : s.responses = .success tokResp :: rest')
    (hx : extractToken tokResp = .ok (some t)) :
    interpUpdateToken (f + 2) s =
      some ({ s with token := t, tokenFile := saveToken t, responses := rest', log := s.log ++ [.refresh, .attempt .getToken (.success tokResp)] }, .bool true) := by
  simp [interpUpdateToken, interpCall, hdfo, htok, hresp, nextResponse, hx, List.append_assoc]

theorem c3aux_single_401 (f : Nat) (st : BotState) (ep : Endpoint)
    (tokResp t body : Json) (rest : List HttpResult)
    (htok : pyTruthy st.token = true) (hdfo : st.dataFileOk = true)
    (hx : extractToken tokResp = .ok (some t)) (htt : pyTruthy t = true)
    (hresp : st.responses = .httpError 401 :: .success tokResp :: .success body :: rest) :
    interpRequest (f + 3) st ep 0 =
      some ({ st with token := t, tokenFile := saveToken t, responses := rest, log := st.log ++ [.attempt ep (.httpError 401), .refresh, .attempt .getToken (.success tokResp), .attempt ep (.success body)] }, body) := by
  simp [interpRequest, interpCall, htok, hdfo, hresp, nextResponse, hx, htt, List.append_assoc]

theorem c3aux_triple_401 (f : Nat) (st : BotState) (ep : Endpoint)
    (tokResp t : Json) (rest : List HttpResult)
    (htok : pyTruthy st.token = true) (hdfo : st.dataFileOk = true)
    (hx : extractToken tokResp = .ok (some t)) (htt : pyTruthy t = true)
    (hresp : st.responses = .httpError 401 :: .success tokResp :: .httpError 401 :: .success tokResp :: .httpError 401 :: .success tokResp :: rest) :
    interpRequest (f + 5) st ep 0 =
      some ({ st with token := t, tokenFile := saveToken t, responses := rest, log := st.log ++ [.attempt ep (.httpError 401), .refresh, .attempt .getToken (.success tokResp), .attempt ep (.httpError 401), .refresh, .attempt .getToken (.success tokResp), .attempt ep (.httpError 401), .refresh, .attempt .getToken (.success tokResp)] }, .null) := by
  simp [interpRequest, interpCall, htok, hdfo, hresp, nextResponse, hx, htt, List.append_assoc]

theorem noToken_interpCall_diverges (f : Nat) : ∀ (st : BotState) (c : Call),
    pyTruthy st.token = false → st.dataFileOk = true →
    (∀ ep rc, c = .req ep rc → rc < 3) →
    interpCall f st c = none := by
  induction f with
  | zero => intro st c _ _ _; rfl
  | succ f ih =>
    intro st c hnt hdf hrc
    cases c with
    | req ep rc =>
      have hrc3 : ¬ 3 ≤ rc := Nat.not_le.mpr (hrc ep rc rfl)
      have hrt : interpCall f st .refreshToken = none :=
        ih st .refreshToken hnt hdf (fun _ _ h => Call.noConfusion h)
      simp [interpCall, hrc3, hnt, hrt]
    | refreshToken =>
      have hreq : interpCall f { st with log := st.log ++ [Event.refresh] } (.req .getToken 0) = none :=
        ih _ _ (by simpa using hnt) (by simpa using hdf)
          (fun ep rc h => by injection h with h1 h2; omega)
      simp only [hdf] at hreq
      simp [interpCall, hdf, hreq]

theorem applyPlayResult_ok (score : Int) (mult resp : Json) (stats : Stats)
    (hst : pyGet resp "status" = .ok (.str "OK"))
    (hdata : ∃ fs, pyIndex resp "data" = .ok (.obj fs)) :
    ∃ e', applyPlayResult score mult resp stats =
      ({ stats with energy := e', totalGames := stats.totalGames + 1, lastScore := .num score, multiplier := mult, totalPoints := stats.totalPoints + score }, .ok true) := by
  obtain ⟨fs2, hd⟩ := hdata
  cases resp with
  | null => simp [pyGet] at hst
  | bool b => simp [pyGet] at hst
  | num n => simp [pyGet] at hst
  | str s => simp [pyGet] at hst
  | arr l => simp [pyGet] at hst
  | obj fs' =>
    have hne : fs' ≠ [] := by
      intro hnil
      subst hnil
      simp [pyGet, lookupField] at hst
    have htruthy : pyTruthy (Json.obj fs') = true := by
      simp [pyTruthy, hne]
    have hlf : lookupField fs' "data" = some (.obj fs2) := by
      simp only [pyIndex] at hd
      cases hlf0 : lookupField fs' "data" with
      | none => rw [hlf0] at hd; exact Except.noConfusion hd
      | some v =>
        rw [hlf0] at hd
        simp only [Except.ok.injEq] at hd
        rw [hd]
    refine ⟨(lookupField fs2 "userCurrentEnergy").getD stats.energy, ?_⟩
    simp [applyPlayResult, htruthy, hst, Json.isStr, pyContains, hlf, pyIndex, pyGetD]

theorem interpRequest_step_success (f : Nat) (st : BotState) (ep : Endpoint)
    (rc : Nat) (body : Json) (rest : List HttpResult)
    (htok : pyTruthy st.token = true) (hrc : rc < 3)
    (hresp : st.responses = .success body :: rest) :
    interpRequest (f + 1) st ep rc = some ({ st with responses := rest, log := st.log ++ [.attempt ep (.success body)] }, body) := by
  simp [interpRequest, interpCall, Nat.not_le.mpr hrc, htok, hresp, nextResponse]

theorem episode_success (f : Nat) (now : Json) (st : BotState) (e : Episode)
    (htok : pyTruthy st.token = true)
    (hn : e.polls.length = 12)
    (h401 : ∀ r ∈ e.polls, isHttp401 r = false)
    (hst : pyGet e.submit "status" = .ok (.str "OK"))
    (hdata : ∃ fs, pyIndex e.submit "data" = .ok (.obj fs)) :
    ∃ st1, interpPlayGame (f + 1) { st with responses := e.polls ++ [.success e.submit] } 1 e.score (.str "1") now = some (st1, .ok true) ∧
      st1.token = st.token ∧ st1.dataFileOk = st.dataFileOk ∧
      st1.stats.totalGames = st.stats.totalGames + 1 ∧
      st1.stats.totalPoints = st.stats.totalPoints + e.score := by
  obtain ⟨extL, eL, luL, hloop⟩ := interpRefreshLoop_consume f now e.polls
    { st with responses := e.polls ++ [.success e.submit] } [.success e.submit]
    (by simpa using htok) h401 (by simp)
  rw [hn] at hloop
  have hsub := interpRequest_step_success f
    { st with responses := [HttpResult.success e.submit], log := st.log ++ extL, stats := { st.stats with energy := eL, lastUpdate := luL } }
    .playGameGetReward 0 e.submit []
    (by simpa using htok) (by omega) (by simp)
  obtain ⟨eV, happly⟩ := applyPlayResult_ok e.score (.str "1") e.submit
    { st.stats with energy := eL, lastUpdate := luL } hst hdata
  simp only at hloop hsub happly
  refine ⟨{ st with responses := [], log := (st.log ++ extL) ++ [Event.attempt Endpoint.playGameGetReward (HttpResult.success e.submit)], stats := { energy := eV, totalGames := st.stats.totalGames + 1, lastScore := Json.num e.score, multiplier := Json.str "1", totalPoints := st.stats.totalPoints + e.score, lastUpdate := luL } }, ?_, by simp, by simp, by simp, by simp⟩
  simp only [interpPlayGame, hloop]
  simp only [hsub]
  simp only [happly]

theorem runEpisodes_spec (f : Nat) (now : Json) : ∀ (eps : List Episode) (st : BotState),
    pyTruthy st.token = true →
    (∀ e ∈ eps, e.polls.length = 12 ∧ (∀ r ∈ e.polls, isHttp401 r = false) ∧
      pyGet e.submit "status" = .ok (.str "OK") ∧
      ∃ fs, pyIndex e.submit "data" = .ok (.obj fs)) →
    ∃ st', runEpisodes (f + 1) now st eps = some st' ∧
      st'.stats.totalGames = st.stats.totalGames + eps.length ∧
      st'.stats.totalPoints = st.stats.totalPoints + (eps.map Episode.score).sum := by
  intro eps
  induction eps with
  | nil =>
    intro st htok hgood
    exact ⟨st, rfl, by simp, by simp⟩
  | cons e rest ih =>
    intro st htok hgood
    obtain ⟨hn, h401, hst, hdata⟩ := hgood e (by simp)
    obtain ⟨st1, hplay, htk1, _, hg1, hp1⟩ := episode_success f now st e htok hn h401 hst hdata
    obtain ⟨st', hrun, hg2, hp2⟩ := ih st1 (by rw [htk1]; exact htok)
      (fun x hx => hgood x (by simp [hx]))
    refine ⟨st', ?_, ?_, ?_⟩
    · simp only [runEpisodes, hplay]
      exact hrun
    · rw [hg2, hg1]
      simp only [List.length_cons]
      push_cast
      omega
    · rw [hp2, hp1]
      simp only [List.map_cons, List.sum_cons]
      omega

/-! ## Claim theorems -/

/-- C7 counterexample: the claim says `_load_token` returns absent for *any*
malformed or unexpected store content, but content that decodes to a JSON
value that is not an object (here, the array `[]`) makes
`data.get('token')` raise `AttributeError` past `_load_token`. -/
theorem c7_counterexample :
    loadToken (.parsed (.arr [])) = .error .attributeError := rfl

/-- C7 (amended): `_load_token` returns absent (Python None, `Json.null`)
rather than raising for a missing file and for content that fails to decode
as JSON (including an empty file) — malformed content is treated the same
as no credential; content that decodes to a JSON object never raises
either: it yields absent when no `token` key is present (and the stored
token value when there is one). Only decoded non-object JSON raises (see
the counterexample). -/
theorem c7_amended :
    loadToken .missing = .ok .null ∧
    loadToken .malformed = .ok .null ∧
    (∀ fs, lookupField fs "token" = none →
      loadToken (.parsed (.obj fs)) = .ok .null) ∧
    (∀ fs, ∃ v, loadToken (.parsed (.obj fs)) = .ok v) := by
  refine ⟨rfl, rfl, ?_, ?_⟩
  · intro fs hfs
    simp [loadToken, hfs]
  · intro fs
    exact ⟨_, rfl⟩

/-- C7 witness: the amended claim evaluated at a missing store, at an object
without a `token` key, and at an object holding one. -/
theorem c7_witness :
    loadToken .missing = .ok .null ∧
    loadToken (.parsed (.obj [("other", .num 1)])) = .ok .null ∧
    ∃ v, loadToken (.parsed (.obj [("token", .str "abc")])) = .ok v := by
  obtain ⟨h1, _, h3, h4⟩ := c7_amended
  exact ⟨h1, h3 [("other", .num 1)] rfl, h4 [("token", .str "abc")]⟩

/-- C8: whenever `_load_token` succeeds and returns a credential (a non-None
value), saving that credential back with `_save_token` leaves the persisted
token unchanged: re-loading yields the same value. -/
theorem c8_save_load_roundtrip (tf : TokenFile) (t : Json)
    (hload : loadToken tf = .ok t) (hcred : t ≠ .null) :
    loadToken (saveToken t) = .ok t := by
  simp [loadToken, saveToken, lookupField]

/-- C8 witness: round-trip through a store holding `{"token": "abc"}`. -/
theorem c8_witness : loadToken (saveToken (.str "abc")) = .ok (.str "abc") :=
  c8_save_load_roundtrip (saveToken (.str "abc")) (.str "abc") rfl
    (fun h => Json.noConfusion h)

/-- C4: the claim says every Gateway call triggers at most 3 re-authentication
attempts and terminates. In the code, a call made while no (truthy) token is
held and `data.txt` is readable recurses
`_request → update_token → _request → ...` without bound: the interpreter
exhausts any amount of fuel, for every endpoint. The `retry_count` bound
never engages, because each nested call starts a fresh counter and the
no-token path consumes no response. -/
theorem c4_no_token_unbounded_recursion (fuel : Nat) (st : BotState)
    (ep : Endpoint)
    (hnt : pyTruthy st.token = false) (hdf : st.dataFileOk = true) :
    interpRequest fuel st ep 0 = none :=
  noToken_interpCall_diverges fuel st (.req ep 0) hnt hdf
    (fun _ rc h => by injection h with _ h2; omega)

/-- C4 witness: a concrete no-token call diverges even with fuel 1000. -/
theorem c4_witness :
    interpRequest 1000 ⟨Json.null, true, .missing, [], [], initStats⟩ .getUserGameInfo 0 = none :=
  c4_no_token_unbounded_recursion 1000 ⟨Json.null, true, .missing, [], [], initStats⟩ .getUserGameInfo rfl rfl

/-- C9: a transport-successful response whose status field is not "OK" makes
each of the three operations report failure with no success-path state
update: `update_token` extracts no token (and the interpreted call leaves
the in-memory and persisted token unchanged, returning False),
`update_energy` leaves the stats unchanged and returns False, and
`play_game`'s response handling leaves the stats unchanged and returns
False. -/
theorem c9_non_ok_status_reports_failure (resp s : Json)
    (hs : pyGet resp "status" = .ok s) (hnot : s.isStr "OK" = false) :
    extractToken resp = .ok none ∧
    (∀ now stats, applyEnergyResult resp now stats = (stats, false)) ∧
    (∀ score mult stats, applyPlayResult score mult resp stats = (stats, .ok false)) ∧
    (∀ fuel st, st.dataFileOk = true → pyTruthy st.token = true →
      st.responses = [.success resp] →
      ∃ st1, interpUpdateToken (fuel + 2) st = some (st1, .bool false) ∧
        st1.token = st.token ∧ st1.tokenFile = st.tokenFile) := by
  have hext : extractToken resp = .ok none := by
    unfold extractToken
    by_cases ht : pyTruthy resp
    · rw [if_pos ht, hs]
      simp [hnot]
    · rw [if_neg ht]
  refine ⟨hext, ?_, ?_, ?_⟩
  · intro now stats
    have : energyFromResponse resp = .ok none := by
      unfold energyFromResponse
      by_cases ht : pyTruthy resp
      · rw [if_pos ht, hs]
        simp [hnot]
      · rw [if_neg ht]
    simp [applyEnergyResult, this]
  · intro score mult stats
    unfold applyPlayResult
    by_cases ht : pyTruthy resp
    · rw [if_pos ht, hs]
      simp [hnot]
    · rw [if_neg ht]
  · intro fuel st hdf htok hresp
    refine ⟨{ st with responses := [], log := st.log ++ [.refresh, .attempt .getToken (.success resp)] }, ?_, by simp, by simp⟩
    simp [interpUpdateToken, interpCall, hdf, htok, hresp, nextResponse, hext,
      List.append_assoc]

/-- C9 witness: all four parts at the response `{"status": "FAIL"}`. -/
theorem c9_witness :
    extractToken (.obj [("status", .str "FAIL")]) = .ok none ∧
    applyEnergyResult (.obj [("status", .str "FAIL")]) (.str "t") initStats = (initStats, false) ∧
    applyPlayResult 170 (.str "1") (.obj [("status", .str "FAIL")]) initStats = (initStats, .ok false) ∧
    ∃ st1, interpUpdateToken 3 (mkState [.success (.obj [("status", .str "FAIL")])]) = some (st1, .bool false) ∧
      st1.token = (mkState [.success (.obj [("status", .str "FAIL")])]).token ∧
      st1.tokenFile = (mkState [.success (.obj [("status", .str "FAIL")])]).tokenFile := by
  obtain ⟨h1, h2, h3, h4⟩ :=
    c9_non_ok_status_reports_failure (.obj [("status", .str "FAIL")]) (.str "FAIL") rfl rfl
  exact ⟨h1, h2 _ _, h3 _ _ _, h4 1 _ rfl rfl rfl⟩

/-- C10: when the SubmitPlay response is absent (falsy) or its status is not
"OK", `play_game`'s response handling returns False with the stats exactly
as they were; and any interpreted `play_game` episode that returns False
leaves `Total Games`, `Last Score`, `Multiplier` and `Total Points` exactly
as they were before the episode (only `Energy` / `Last Update` may have
changed through the display-only refreshes). -/
theorem c10_failed_play_preserves_counters :
    (∀ (score : Int) (mult resp : Json) (stats : Stats),
      (pyTruthy resp = false ∨ ∃ s, pyGet resp "status" = .ok s ∧ s.isStr "OK" = false) →
      applyPlayResult score mult resp stats = (stats, .ok false)) ∧
    (∀ (fuel : Nat) (st : BotState) (gameId score : Int) (mult now : Json) (st' : BotState),
      interpPlayGame fuel st gameId score mult now = some (st', .ok false) →
      st'.stats.totalGames = st.stats.totalGames ∧
      st'.stats.lastScore = st.stats.lastScore ∧
      st'.stats.multiplier = st.stats.multiplier ∧
      st'.stats.totalPoints = st.stats.totalPoints) := by
  constructor
  · intro score mult resp stats h
    rcases h with h | ⟨s, hs, hnot⟩
    · unfold applyPlayResult
      rw [if_neg (by simp [h])]
    · unfold applyPlayResult
      by_cases ht : pyTruthy resp
      · rw [if_pos ht, hs]
        simp [hnot]
      · rw [if_neg ht]
  · intro fuel st gameId score mult now st' h
    exact interpPlayGame_failed_frame fuel st gameId score mult now st' h

/-- C10 witness: the response-handling part at a falsy response, and a
concrete failed episode (twelve refreshes, then a submit whose status is
"FAIL") leaving all four counters at their initial values. -/
theorem c10_witness :
    applyPlayResult 170 (.str "1") .null initStats = (initStats, .ok false) ∧
    ∃ st', interpPlayGame 2 (mkState (List.replicate 12 failStatus ++ [failStatus])) 1 170 (.str "1") (.str "t") = some (st', .ok false) ∧
      (st'.stats.totalGames = (mkState (List.replicate 12 failStatus ++ [failStatus])).stats.totalGames ∧
       st'.stats.lastScore = (mkState (List.replicate 12 failStatus ++ [failStatus])).stats.lastScore ∧
       st'.stats.multiplier = (mkState (List.replicate 12 failStatus ++ [failStatus])).stats.multiplier ∧
       st'.stats.totalPoints = (mkState (List.replicate 12 failStatus ++ [failStatus])).stats.totalPoints) := by
  refine ⟨(c10_failed_play_preserves_counters).1 170 (.str "1") .null initStats (Or.inl rfl), ?_⟩
  refine ⟨_, rfl, (c10_failed_play_preserves_counters).2 2 _ 1 170 (.str "1") (.str "t") _ rfl⟩

/-- C3: (first half) with a credential held, a single 401 response triggers
exactly one `update_token` refresh followed by exactly one retry of the same
logical call, which then succeeds — the appended trace is precisely
[attempt(401), refresh, getToken attempt, retried attempt]. (Second half)
three consecutive 401 responses consume exactly three attempts and three
refreshes and then the call chain stops with the max-retries failure
(returning None) without issuing a fourth attempt — the remaining oracle is
untouched. -/
theorem c3_single_401_refreshes_once_three_401s_abort :
    (∀ (f : Nat) (st : BotState) (ep : Endpoint) (tokResp t body : Json)
        (rest : List HttpResult),
      pyTruthy st.token = true → st.dataFileOk = true →
      extractToken tokResp = .ok (some t) → pyTruthy t = true →
      st.responses = .httpError 401 :: .success tokResp :: .success body :: rest →
      interpRequest (f + 3) st ep 0 =
        some ({ st with token := t, tokenFile := saveToken t, responses := rest, log := st.log ++ [.attempt ep (.httpError 401), .refresh, .attempt .getToken (.success tokResp), .attempt ep (.success body)] }, body)) ∧
    (∀ (f : Nat) (st : BotState) (ep : Endpoint) (tokResp t : Json)
        (rest : List HttpResult),
      pyTruthy st.token = true → st.dataFileOk = true →
      extractToken tokResp = .ok (some t) → pyTruthy t = true →
      st.responses = .httpError 401 :: .success tokResp :: .httpError 401 :: .success tokResp :: .httpError 401 :: .success tokResp :: rest →
      interpRequest (f + 5) st ep 0 =
        some ({ st with token := t, tokenFile := saveToken t, responses := rest, log := st.log ++ [.attempt ep (.httpError 401), .refresh, .attempt .getToken (.success tokResp), .attempt ep (.httpError 401), .refresh, .attempt .getToken (.success tokResp), .attempt ep (.httpError 401), .refresh, .attempt .getToken (.success tokResp)] }, .null)) :=
  ⟨fun f st ep tokResp t body rest h1 h2 h3 h4 h5 =>
      c3aux_single_401 f st ep tokResp t body rest h1 h2 h3 h4 h5,
   fun f st ep tokResp t rest h1 h2 h3 h4 h5 =>
      c3aux_triple_401 f st ep tokResp t rest h1 h2 h3 h4 h5⟩

/-- C3 witness: both halves at a concrete state and token response. -/
theorem c3_witness :
    interpRequest 3 (mkState [.httpError 401, .success okTokenResp, .success (okSubmit 3)]) .playGameGetReward 0 =
      some ({ mkState [.httpError 401, .success okTokenResp, .success (okSubmit 3)] with token := .str "tok2", tokenFile := saveToken (.str "tok2"), responses := [], log := [.attempt .playGameGetReward (.httpError 401), .refresh, .attempt .getToken (.success okTokenResp), .attempt .playGameGetReward (.success (okSubmit 3))] }, okSubmit 3) ∧
    interpRequest 5 (mkState [.httpError 401, .success okTokenResp, .httpError 401, .success okTokenResp, .httpError 401, .success okTokenResp]) .playGameGetReward 0 =
      some ({ mkState [.httpError 401, .success okTokenResp, .httpError 401, .success okTokenResp, .httpError 401, .success okTokenResp] with token := .str "tok2", tokenFile := saveToken (.str "tok2"), responses := [], log := [.attempt .playGameGetReward (.httpError 401), .refresh, .attempt .getToken (.success okTokenResp), .attempt .playGameGetReward (.httpError 401), .refresh, .attempt .getToken (.success okTokenResp), .attempt .playGameGetReward (.httpError 401), .refresh, .attempt .getToken (.success okTokenResp)] }, .null) := by
  constructor
  · have := c3_single_401_refreshes_once_three_401s_abort.1 0
      (mkState [.httpError 401, .success okTokenResp, .success (okSubmit 3)])
      .playGameGetReward okTokenResp (.str "tok2") (okSubmit 3) [] rfl rfl rfl rfl rfl
    simpa [mkState] using this
  · have := c3_single_401_refreshes_once_three_401s_abort.2 0
      (mkState [.httpError 401, .success okTokenResp, .httpError 401, .success okTokenResp, .httpError 401, .success okTokenResp])
      .playGameGetReward okTokenResp (.str "tok2") [] rfl rfl rfl rfl rfl
    simpa [mkState] using this

/-- C5: within a single `play_game` episode the SubmitPlay POST is attempted
at most 3 times in total, and every attempt after the first one was
provoked by a 401 on the previous attempt (`chain401`): apart from the
bounded 401 re-auth retries it is issued at most once, and it is never
re-issued after a non-401 failure. The display refreshes issue no SubmitPlay
attempts. -/
theorem c5_submit_at_most_once_per_episode (fuel : Nat) (st : BotState)
    (gameId score : Int) (mult now : Json) (st' : BotState)
    (r : Except PyError Bool)
    (h : interpPlayGame fuel st gameId score mult now = some (st', r)) :
    ∃ ext, st'.log = st.log ++ ext ∧
      (attemptsTo .playGameGetReward ext).length ≤ 3 ∧
      chain401 (attemptsTo .playGameGetReward ext) = true := by
  simp only [interpPlayGame] at h
  cases hloop : interpRefreshLoop fuel now 12 st with
  | none => rw [hloop] at h; exact Option.noConfusion h
  | some st1 =>
    simp only [hloop] at h
    cases hreq : interpRequest fuel st1 .playGameGetReward 0 with
    | none => rw [hreq] at h; exact Option.noConfusion h
    | some p =>
      obtain ⟨st2, resp⟩ := p
      simp only [hreq] at h
      obtain ⟨_, _, _, _, ext1, hl1, hpg1⟩ :=
        interpRefreshLoop_frame fuel now 12 st st1 hloop
      obtain ⟨ext2, hl2, hlen2, hchain2⟩ :=
        interpRequest_chain fuel st1 .playGameGetReward 0 st2 resp
          (fun hq => Endpoint.noConfusion hq) hreq
      cases happly : applyPlayResult score mult resp st2.stats with
      | mk stats2 r2 =>
        simp only [happly, Option.some.injEq, Prod.mk.injEq] at h
        obtain ⟨h1, _⟩ := h
        subst h1
        refine ⟨ext1 ++ ext2, ?_, ?_, ?_⟩
        · rw [hl2, hl1, List.append_assoc]
        · rw [attemptsTo_append, hpg1]
          simpa using hlen2
        · rw [attemptsTo_append, hpg1]
          simpa using hchain2

/-- C5 witness: a concrete episode whose submit gets one 401, one refresh
and one successful retry — two SubmitPlay attempts, chained by a 401. -/
theorem c5_witness :
    ∃ st' r, interpPlayGame 5 (mkState (List.replicate 12 failStatus ++ [.httpError 401, .success okTokenResp, .success (okSubmit 3)])) 1 170 (.str "1") (.str "t") = some (st', r) ∧
      ∃ ext, st'.log = (mkState (List.replicate 12 failStatus ++ [.httpError 401, .success okTokenResp, .success (okSubmit 3)])).log ++ ext ∧
        (attemptsTo .playGameGetReward ext).length ≤ 3 ∧
        chain401 (attemptsTo .playGameGetReward ext) = true :=
  ⟨_, _, rfl, c5_submit_at_most_once_per_episode 5 _ 1 170 (.str "1") (.str "t") _ _ rfl⟩

/-- C6: starting the waiting-for-energy countdown, (a) it always ends within
10800 ticks; the number of `update_energy` polls it makes is exactly one per
300 elapsed ticks; a recharged exit happens exactly at a poll tick (a
multiple of 300) with observed energy > 0; and a timeout exit happens
exactly at 10800. (b) As soon as a poll reports success with energy > 0 the
loop exits immediately at that very tick with the recharged exit. -/
theorem c6_wait_bounded_polls_every_300_exits_on_recharge :
    (∀ (fuel : Nat) (st : BotState) (now : Json) (st' : BotState)
        (ex : WaitExit) (n : Nat),
      interpWait fuel st now = some (st', ex, n) →
      n ≤ 10800 ∧
      countPoll st'.log = countPoll st.log + n / 300 ∧
      (ex = .recharged → n % 300 = 0 ∧ 0 < n ∧ pyGtInt st'.stats.energy 0 = .ok true) ∧
      (ex = .timedOut → n = 10800)) ∧
    (∀ (fuel : Nat) (now : Json) (budget completed : Nat) (st st1 : BotState),
      (completed + 1) % 300 = 0 →
      interpUpdateEnergy fuel st now = some (st1, true) →
      pyGtInt st1.stats.energy 0 = .ok true →
      interpWaitLoop fuel now (budget + 1) completed st =
        some (st1, .recharged, completed + 1)) := by
  constructor
  · intro fuel st now st' ex n h
    obtain ⟨h1, _, h3, h4, h5⟩ := interpWaitLoop_spec fuel now 10800 0 st st' ex n h
    exact ⟨by omega, by simpa using h3, h4, fun hx => by have := h5 hx; omega⟩
  · intro fuel now budget completed st st1 hm hp hg
    exact interpWaitLoop_recharge_step fuel now budget completed st st1 hm hp hg

set_option maxRecDepth 4000 in
/-- C6 witness: a wait whose first poll (at tick 300) reports energy 50
exits recharged at tick 300 having polled once; and the one-step exit at a
poll tick. -/
theorem c6_witness :
    (∃ st' ex n, interpWait 2 (mkState [okEnergy 50]) (.str "t") = some (st', ex, n) ∧
      n ≤ 10800 ∧
      countPoll st'.log = countPoll (mkState [okEnergy 50]).log + n / 300 ∧
      (ex = .recharged → n % 300 = 0 ∧ 0 < n ∧ pyGtInt st'.stats.energy 0 = .ok true) ∧
      (ex = .timedOut → n = 10800)) ∧
    (∃ st1, interpUpdateEnergy 2 (mkState [okEnergy 50]) (.str "t") = some (st1, true) ∧
      interpWaitLoop 2 (.str "t") 1 299 (mkState [okEnergy 50]) =
        some (st1, .recharged, 300)) := by
  constructor
  · exact ⟨_, _, _, rfl,
      c6_wait_bounded_polls_every_300_exits_on_recharge.1 2 _ (.str "t") _ _ _ rfl⟩
  · refine ⟨_, rfl, ?_⟩
    exact c6_wait_bounded_polls_every_300_exits_on_recharge.2 2 (.str "t") 0 299 _ _ rfl rfl rfl

/-- C1: in a `main`-loop iteration, once the top-of-loop energy refresh has
completed and left an integer energy value `e` in the stats, the iteration
enters the waiting-for-energy branch exactly when `e ≤ 0`, and proceeds
directly to a `play_game` attempt (without waiting) exactly when `e > 0`. -/
theorem c1_play_iff_energy_positive (fuel : Nat) (st st1 : BotState) (b : Bool)
    (score e : Int) (now : Json) (res : IterResult)
    (hup : interpUpdateEnergy fuel st now = some (st1, b))
    (he : st1.stats.energy = Json.num e)
    (hres : interpMainIter fuel st score now = some res) :
    (res.enteredWait = true ↔ e ≤ 0) ∧
    (0 < e → res.playedGame = true ∧ res.enteredWait = false) := by
  simp only [interpMainIter] at hres
  simp only [hup] at hres
  by_cases he0 : e ≤ 0
  · have hle : pyLeInt st1.stats.energy 0 = .ok true := by
      rw [he]
      unfold pyLeInt
      simp [he0]
    simp only [hle] at hres
    have hwait : res.enteredWait = true := by
      cases hw : interpWait fuel st1 now with
      | none => rw [hw] at hres; exact Option.noConfusion hres
      | some q =>
        obtain ⟨st2, ek, ticks⟩ := q
        simp only [hw] at hres
        cases ek with
        | raised e2 =>
          simp only [Option.some.injEq] at hres
          subst hres; rfl
        | recharged =>
          cases hle2 : pyLeInt st2.stats.energy 0 with
          | error e2 =>
            simp only [hle2, Option.some.injEq] at hres
            subst hres; rfl
          | ok bb =>
            cases bb with
            | true =>
              simp only [hle2, Option.some.injEq] at hres
              subst hres; rfl
            | false =>
              simp only [hle2] at hres
              exact (runPlay_shape _ _ _ _ _ _ hres).1
        | timedOut =>
          cases hle2 : pyLeInt st2.stats.energy 0 with
          | error e2 =>
            simp only [hle2, Option.some.injEq] at hres
            subst hres; rfl
          | ok bb =>
            cases bb with
            | true =>
              simp only [hle2, Option.some.injEq] at hres
              subst hres; rfl
            | false =>
              simp only [hle2] at hres
              exact (runPlay_shape _ _ _ _ _ _ hres).1
    exact ⟨by simp [hwait, he0], fun hgt => absurd hgt (by omega)⟩
  · have hle : pyLeInt st1.stats.energy 0 = .ok false := by
      rw [he]
      unfold pyLeInt
      simp [he0]
    simp only [hle] at hres
    obtain ⟨hw, hp⟩ := runPlay_shape _ _ _ _ _ _ hres
    exact ⟨by simp [hw, he0], fun _ => ⟨hp, hw⟩⟩

/-- C1 witness: a concrete iteration whose refresh reports energy 5 — the
bot plays directly without entering the wait. -/
theorem c1_witness :
    ∃ res, interpMainIter 2 (mkState ([okEnergy 5] ++ List.replicate 12 failStatus ++ [failStatus])) 170 (.str "t") = some res ∧
      ((res.enteredWait = true ↔ (5 : Int) ≤ 0) ∧
       (0 < (5 : Int) → res.playedGame = true ∧ res.enteredWait = false)) :=
  ⟨_, rfl, c1_play_iff_energy_positive 2
    (mkState ([okEnergy 5] ++ List.replicate 12 failStatus ++ [failStatus]))
    _ _ 170 5 (.str "t") _ rfl rfl rfl⟩

/-- C2 counterexample: a single play attempt whose SubmitPlay response has
status "OK" but carries no `data` field: `play_game` reports success and
increments Total Games to 1, yet Total Points stays 0 instead of the
submitted score 170 — the claimed equality `totalPoints = sum of submitted
scores` fails. -/
theorem c2_counterexample :
    ∃ st', interpPlayGame 2 (mkState (List.replicate 12 failStatus ++ [.success (.obj [("status", .str "OK")])])) 1 170 (.str "1") (.str "t") = some (st', .ok true) ∧
      st'.stats.totalGames = 1 ∧ st'.stats.totalPoints = 0 ∧ (0 : Int) ≠ 170 :=
  ⟨_, rfl, rfl, rfl, by decide⟩

/-- C2 (amended): for N play attempts whose SubmitPlay responses all have
status "OK" *and contain a `data` object*, starting from a session whose
counters are at their initial values, Total Games ends at N and Total
Points at the sum of the N submitted scores. (Without the `data` field the
code increments Total Games but not Total Points, see the counterexample.) -/
theorem c2_games_and_points_accumulate (f : Nat) (now : Json)
    (eps : List Episode) (st : BotState)
    (htok : pyTruthy st.token = true)
    (hgood : ∀ e ∈ eps, e.polls.length = 12 ∧
      (∀ r ∈ e.polls, isHttp401 r = false) ∧
      pyGet e.submit "status" = .ok (.str "OK") ∧
      ∃ fs, pyIndex e.submit "data" = .ok (.obj fs))
    (hg0 : st.stats.totalGames = 0) (hp0 : st.stats.totalPoints = 0) :
    ∃ st', runEpisodes (f + 1) now st eps = some st' ∧
      st'.stats.totalGames = eps.length ∧
      st'.stats.totalPoints = (eps.map Episode.score).sum := by
  obtain ⟨st', hrun, hg, hp⟩ := runEpisodes_spec f now eps st htok hgood
  exact ⟨st', hrun, by rw [hg, hg0]; omega, by rw [hp, hp0]; omega⟩

/-- C2 witness: one episode with score 170 and a well-formed OK response —
Total Games 1, Total Points 170. -/
theorem c2_witness :
    ∃ st', runEpisodes 2 (.str "t") (mkState []) [⟨170, List.replicate 12 failStatus, okSubmit 3⟩] = some st' ∧
      st'.stats.totalGames = ([⟨170, List.replicate 12 failStatus, okSubmit 3⟩] : List Episode).length ∧
      st'.stats.totalPoints = (([⟨170, List.replicate 12 failStatus, okSubmit 3⟩] : List Episode).map Episode.score).sum := by
  refine c2_games_and_points_accumulate 1 (.str "t") _ (mkState []) rfl ?_ rfl rfl
  intro e he
  simp only [List.mem_singleton] at he
  subst he
  refine ⟨by simp, ?_, rfl, ⟨[("userCurrentEnergy", Json.num 3)], rfl⟩⟩
  intro r hr
  rw [List.eq_of_mem_replicate hr]
  rfl
